import Mathlib

/-!
# Verification of the seller-inventory synchronization and matching engine

Shallow embedding of the core of `services/discogs_service.py` and
`services/wantlist_matching_service.py`.

Modelling conventions:
* A raw upstream listing (one element of a page's `listings` array, after the
  JSON field extraction the source performs) is a `Listing`.  Fields that no
  verified logic ever consults (price, conditions, thumbnails, …) are omitted.
* The upstream catalog API is an oracle `Oracle : Nat → Option PageResp`
  mapping a page number to the response of `GET …/inventory?page=N&per_page=100`;
  `none` models a raised exception (timeout / network error) for that request.
  Fetch operations that use distinct query parameters (the `sort=listed`
  incremental fetch, the single `per_page=200` retry) take their own oracle
  value or response argument.
* Python `str` values stay `String`; `None`-able strings are `Option String`;
  the source's `str(x)` applied to a possibly-`None` value is `py_str_of_opt`
  (note `str(None) = "None"` in Python).  ISO timestamps that the source
  compares with the string `>` operator stay `String` compared
  lexicographically, exactly as the source does; the `cached_at` timestamps
  that the source subtracts as `datetime`s are modelled as seconds (`Nat`).
* Each fetch returns, besides its value, the list of page numbers it
  requested over HTTP (`requests`), so that statements about "no further
  page requests" and "zero network calls" are expressible.
-/

namespace MutualOrder

/-- One raw listing of an inventory page, as extracted by the source from the
JSON payload: `listing.get('id')` (stringified), the nested
`release.get('id')` (`None` possible), `release.get('title','Unknown')`,
`listing.get('listed','')` and `listing.get('status','For Sale')`. -/
structure Listing where
  id : String
  release_id : Option String
  title : String
  listed : String
  status : String
deriving Repr, DecidableEq

/-- The `pagination` object of a page response (`pagination.get('pages', 1)`,
`pagination.get('items', 0)`). -/
structure Pgn where
  pages : Nat
  items : Nat
deriving Repr, DecidableEq

/-- One HTTP response of the inventory endpoint: status code, `listings`
array and `pagination` object. -/
structure PageResp where
  status : Nat
  listings : List Listing
  pagination : Pgn
deriving Repr, DecidableEq

/-- The upstream catalog API for one seller: page number ↦ response;
`none` models a raised exception (e.g. a timed-out page fetch). -/
abbrev Oracle := Nat → Option PageResp

/-- A processed inventory item: the dict the source builds from a listing.
`listed_date = none` models the *absence* of the `'listed_date'` key (the
plain full fetch does not store it), `some d` models presence with value `d`
(possibly the empty string).  The processed dicts built by the source carry
no `'artist'` key, so `artist` is always `""` for them; the field itself
models `item.get('artist', '')`. -/
structure Item where
  id : String
  release_id : Option String
  title : String
  listing_url : String
  status : String
  listed_date : Option String
  artist : String
deriving Repr, DecidableEq

/-- `str(x)` applied to an optional string, as in
`str(d.get('release_id', ''))` when the key is present: Python renders
`None` as the string `"None"`. -/
def py_str_of_opt : Option String → String
  | some s => s
  | none => "None"

/-- Lexicographic strict comparison of character lists by code point:
Python's `<` on strings (a proper prefix is smaller). -/
def chars_lt : List Char → List Char → Bool
  | [], [] => false
  | [], _ :: _ => true
  | _ :: _, [] => false
  | a :: as, b :: bs => if a < b then true else if b < a then false else chars_lt as bs

/-- Python's `a < b` on strings. -/
def py_str_lt (a b : String) : Bool := chars_lt a.data b.data

/-- Python's `a <= b` on strings. -/
def py_str_le (a b : String) : Bool := !py_str_lt b a

/-- Processing of one listing by `fetch_seller_inventory` (no
`'listed_date'` key is stored). -/
def process_listing (l : Listing) : Item :=
  { id := l.id
    release_id := l.release_id
    title := l.title
    listing_url := "https://www.discogs.com/sell/item/" ++ l.id
    status := l.status
    listed_date := none
    artist := "" }

/-- Processing of one listing by the incremental / backfill fetches, which
additionally store `'listed_date': listing.get('listed', '')`. -/
def process_listing_dated (l : Listing) : Item :=
  { process_listing l with listed_date := some l.listed }

/-- Result of a paginated fetch: the items returned and the page numbers
requested over HTTP. -/
structure FetchOut where
  items : List Item
  requests : List Nat
deriving Repr, DecidableEq

/-- The page-2-onwards loop of `DiscogsService.fetch_seller_inventory`
(lines 354-397): request the page; a non-2xx or an empty `listings` array
breaks the loop keeping the inventory accumulated so far; a short page
(fewer than 100 listings) breaks after appending; otherwise continue with
the next page.  The loop's own safety stop `page > 200` is the fuel (the
last page it can request is 200, i.e. fuel 199 from page 2).  A raised
exception (`none`) yields `none`: the source's `except` handler then makes
the whole fetch return `[]`.  The second component records the requested
page numbers. -/
def fetch_pages_from (oracle : Oracle) : Nat → Nat → List Item → Option (List Item) × List Nat
  | 0, _, acc => (some acc, [])
  | fuel + 1, page, acc =>
    match oracle page with
    | none => (none, [page])
    | some r =>
      if r.status ≠ 200 then (some acc, [page])
      else if r.listings.isEmpty then (some acc, [page])
      else
        let acc2 := acc ++ r.listings.map process_listing
        if r.listings.length < 100 then (some acc2, [page])
        else
          let rest := fetch_pages_from oracle fuel (page + 1) acc2
          (rest.1, page :: rest.2)

/-- `DiscogsService.fetch_seller_inventory` (lines 305-404): probe page 1;
a non-2xx probe returns `[]`; a probed page count over 100 (the Discogs
pagination ceiling) returns `[]` without further requests; otherwise the
first page's listings are processed and the walk continues from page 2.
Any raised exception makes the whole fetch return `[]` (the source's
function-level `except`). -/
def fetch_seller_inventory (oracle : Oracle) : FetchOut :=
  match oracle 1 with
  | none => ⟨[], [1]⟩
  | some r1 =>
    if r1.status ≠ 200 then ⟨[], [1]⟩
    else if r1.pagination.pages > 100 then ⟨[], [1]⟩
    else
      let base := r1.listings.map process_listing
      match fetch_pages_from oracle 199 2 base with
      | (some inv, reqs) => ⟨inv, 1 :: reqs⟩
      | (none, reqs) => ⟨[], 1 :: reqs⟩

/-- The per-page inner loop of
`fetch_seller_inventory_smart_incremental` (lines 545-568): walk the
page's listings in order, keeping those whose `listed` date is non-empty
and strictly newer (string `>`) than the cached watermark; the first
listing that is not strictly newer triggers the early `return` (second
component `true`), skipping the rest of the page. -/
def take_newer (wm : String) : List Listing → List Item × Bool
  | [] => ([], false)
  | l :: rest =>
    if l.listed ≠ "" ∧ py_str_lt wm l.listed then
      let more := take_newer wm rest
      (process_listing_dated l :: more.1, more.2)
    else ([], true)

/-- Result of the smart incremental fetch: new listings, the
`total_fetched` counter, and the requested page numbers. -/
structure IncOut where
  newListings : List Item
  totalFetched : Nat
  requests : List Nat
deriving Repr, DecidableEq

/-- The page loop of `fetch_seller_inventory_smart_incremental`
(lines 523-583), requesting `sort=listed&sort_order=desc` pages: non-2xx
or empty page breaks; a listing not strictly newer than the watermark
returns immediately (without bumping `total_fetched` for that page); a
short page breaks; the safety stop `page > 50` is the fuel (last
requestable page 50).  `none` (exception) makes the whole fetch return
`([], 0)` via the source's `except`. -/
def smart_inc_pages (oracle : Oracle) (wm : String) :
    Nat → Nat → List Item → Nat → Option (List Item × Nat) × List Nat
  | 0, _, acc, tot => (some (acc, tot), [])
  | fuel + 1, page, acc, tot =>
    match oracle page with
    | none => (none, [page])
    | some r =>
      if r.status ≠ 200 then (some (acc, tot), [page])
      else if r.listings.isEmpty then (some (acc, tot), [page])
      else
        match take_newer wm r.listings with
        | (items, true) => (some (acc ++ items, tot), [page])
        | (items, false) =>
          let acc2 := acc ++ items
          let tot2 := tot + r.listings.length
          if r.listings.length < 100 then (some (acc2, tot2), [page])
          else
            let rest := smart_inc_pages oracle wm fuel (page + 1) acc2 tot2
            (rest.1, page :: rest.2)

/-- `fetch_seller_inventory_smart_incremental` (lines 505-590) in the case
where cached metadata with a truthy `most_recent_listing_date` watermark
`wm` exists (otherwise the source falls back to the full fetch). -/
def fetch_seller_inventory_smart_incremental (oracle : Oracle) (wm : String) : IncOut :=
  match smart_inc_pages oracle wm 50 1 [] 0 with
  | (some (items, tot), reqs) => ⟨items, tot, reqs⟩
  | (none, reqs) => ⟨[], 0, reqs⟩

/-- The per-seller sync metadata dict built by
`WantlistMatchingService` (`cached_at` / `last_updated` ISO timestamps are
modelled as epoch seconds, since the source only subtracts them as
`datetime`s; `most_recent_listing_date` keeps the source's string form,
`none` for `None`). -/
structure Metadata where
  seller_name : String
  count : Nat
  cached_at : Nat
  last_updated : Nat
  is_large_seller : Bool
  listing_ids : List String
  most_recent_listing_date : Option String
deriving Repr, DecidableEq

/-- The two cache-store keys the synchronizer owns for one
(seller, user) pair: the snapshot key `seller_inventory:…` and the
metadata key `seller_metadata:…`; `none` = key absent. -/
structure CacheState where
  snapshot : Option (List Item)
  metadata : Option Metadata
deriving Repr, DecidableEq

/-- `WantlistMatchingService._is_large_seller` (lines 493-495):
"Check if seller has large inventory (10k+ items)". -/
def is_large_seller (inventory_count : Nat) : Bool :=
  inventory_count ≥ 10000

/-- `WantlistMatchingService.__init__` (lines 16-19): TTL for regular
sellers, in seconds. -/
def inventory_cache_duration : Nat := 3600

/-- `WantlistMatchingService.__init__` (lines 16-19): TTL for large
sellers, in seconds. -/
def large_seller_cache_duration : Nat := 7200

/-- The "Find most recent listing date" scan the synchronizer runs over a
batch of items (lines 594-599, 627-632, 683-688, 726-731): starting from
`init`, bump to `item['listed_date']` whenever that key is present, truthy
(non-empty) and either the current value is falsy (`None` or `""`) or the
item's date is strictly greater (string `>`).
`wm_bump` is the `not most_recent_date or item['listed_date'] > most_recent_date`
condition (`None` and `""` are both falsy). -/
def wm_bump (wm : Option String) (d : String) : Bool :=
  match wm with
  | none => true
  | some w => w = "" ∨ py_str_lt w d

/-- See `wm_bump`: the watermark scan itself. -/
def scan_most_recent (init : Option String) (items : List Item) : Option String :=
  items.foldl
    (fun wm i =>
      match i.listed_date with
      | none => wm
      | some d => if d ≠ "" ∧ wm_bump wm d then some d else wm)
    init

/-- The fresh metadata dict the synchronizer builds after a successful
full fetch (lines 601-610, 634-643, 733-742). -/
def mk_full_metadata (seller : String) (inventory : List Item) (now : Nat) : Metadata :=
  { seller_name := seller
    count := inventory.length
    cached_at := now
    last_updated := now
    is_large_seller := is_large_seller inventory.length
    listing_ids := inventory.map (fun i => i.id)
    most_recent_listing_date := scan_most_recent none inventory }

/-- `WantlistMatchingService._cache_seller_inventory` (lines 568-581):
both keys are overwritten wholesale. -/
def cache_seller_inventory (inventory : List Item) (md : Metadata) : CacheState :=
  ⟨some inventory, some md⟩

/-- `WantlistMatchingService._get_cached_seller_inventory`
(lines 530-566): metadata first (miss if absent); staleness checked there
with a TTL chosen by `_is_large_seller(metadata.get('count', 0))` and the
*strict* comparison `now - cached_at > duration`; then the snapshot
(miss if absent). -/
def get_cached_seller_inventory (c : CacheState) (now : Nat) :
    Option (List Item) × Option Metadata :=
  match c.metadata with
  | none => (none, none)
  | some md =>
    let dur := if is_large_seller md.count then large_seller_cache_duration
               else inventory_cache_duration
    if now - md.cached_at > dur then (none, none)
    else
      match c.snapshot with
      | some inv => (some inv, some md)
      | none => (none, none)

/-- The merge of freshly fetched listings into the cached inventory in
`_get_incremental_seller_inventory` (line 681): plain list concatenation. -/
def merge_new_listings (cached newListings : List Item) : List Item :=
  cached ++ newListings

/-- The new-listings branch of `_get_incremental_seller_inventory`
(lines 677-698): concatenate, rescan the watermark starting from the
cached one, and rebuild the metadata fields from the merged list. -/
def incremental_update (cached : List Item) (md : Metadata) (newListings : List Item)
    (now : Nat) : List Item × Metadata :=
  let updated := merge_new_listings cached newListings
  (updated,
    { md with
        count := updated.length
        cached_at := now
        last_updated := now
        is_large_seller := is_large_seller updated.length
        listing_ids := updated.map (fun i => i.id)
        most_recent_listing_date :=
          scan_most_recent md.most_recent_listing_date newListings })

/-- Result of one synchronizer operation: the returned
`(inventory, metadata)` pair, the cache state afterwards, and the page
numbers requested over HTTP during the operation. -/
structure SyncOut where
  inventory : Option (List Item)
  metadata : Option Metadata
  cache : CacheState
  requests : List Nat
deriving Repr, DecidableEq

/-- The "full fetch, then cache if non-empty" block shared by the
`bypass_cache` branch (lines 587-614) and the cache-miss branch
(lines 619-647) of `_get_incremental_seller_inventory`: an empty fetch
result yields `(None, None)` with no cache write; otherwise fresh metadata
is built and both keys are overwritten. -/
def full_fetch_and_cache (oracle : Oracle) (seller : String) (c : CacheState)
    (now : Nat) : SyncOut :=
  let f := fetch_seller_inventory oracle
  if f.items.isEmpty then ⟨none, none, c, f.requests⟩
  else
    let md := mk_full_metadata seller f.items now
    ⟨some f.items, some md, cache_seller_inventory f.items md, f.requests⟩

/-- `WantlistMatchingService._get_incremental_seller_inventory`
(lines 583-707).  `oracle` serves the plain paginated requests, `incOracle`
the `sort=listed&sort_order=desc` ones.  The source reads the clock twice
(inside `_get_cached_seller_inventory` and again at line 656); both reads
are modelled by the single `now`.  When the cached watermark is falsy the
source falls back to `fetch_seller_inventory`, whose bare list return
value is then tuple-unpacked at line 665 — that raises (`ValueError` /
`TypeError` downstream) and the function-level `except` returns
`(None, None)` with no cache write; the full fetch's page requests were
made before the failure. -/
def get_incremental_seller_inventory (oracle incOracle : Oracle) (seller : String)
    (c : CacheState) (now : Nat) (bypassCache : Bool) : SyncOut :=
  if bypassCache then full_fetch_and_cache oracle seller c now
  else
    match get_cached_seller_inventory c now with
    | (some cached, some md) =>
      if cached.isEmpty then full_fetch_and_cache oracle seller c now
      else
        let dur := if md.is_large_seller then large_seller_cache_duration
                   else inventory_cache_duration
        if now - md.cached_at ≤ dur then ⟨some cached, some md, c, []⟩
        else
          match md.most_recent_listing_date with
          | none => ⟨none, none, c, (fetch_seller_inventory oracle).requests⟩
          | some wm =>
            if wm = "" then ⟨none, none, c, (fetch_seller_inventory oracle).requests⟩
            else
              let f := fetch_seller_inventory_smart_incremental incOracle wm
              if f.newListings.isEmpty then
                let md2 := { md with cached_at := now, last_updated := now }
                ⟨some cached, some md2, cache_seller_inventory cached md2, f.requests⟩
              else
                let u := incremental_update cached md f.newListings now
                ⟨some u.1, some u.2, cache_seller_inventory u.1 u.2, f.requests⟩
    | _ => full_fetch_and_cache oracle seller c now

/-- `WantlistMatchingService.force_refresh_seller_inventory`
(lines 709-751): *deletes both cache keys first*, then full-fetches; an
empty fetch result returns `(None, None)` leaving the keys deleted;
otherwise the fresh snapshot and metadata are written. -/
def force_refresh_seller_inventory (oracle : Oracle) (seller : String)
    (_c : CacheState) (now : Nat) : SyncOut :=
  let deleted : CacheState := ⟨none, none⟩
  let f := fetch_seller_inventory oracle
  if f.items.isEmpty then ⟨none, none, deleted, f.requests⟩
  else
    let md := mk_full_metadata seller f.items now
    ⟨some f.items, some md, cache_seller_inventory f.items md, f.requests⟩

/-- The tail-page walk of `_fetch_missing_items_from_end_pages`
(lines 679-741).  The batches are single pages, so every `continue` /
inner `break` (403, other non-2xx, per-page exception, empty or short
page) just falls through to the outer threshold check
`len(new_items) >= missing_count`, which is the only early stop.  Each
page's listings are filtered against the cached id set before being
appended.
`page_new_items` is the per-page body: request, skip on 403 / non-2xx /
exception, filter the page's listings against the cached id set. -/
def page_new_items (oracle : Oracle) (cachedIds : List String) (p : Nat) : List Item :=
  match oracle p with
  | none => []
  | some r =>
    if r.status ≠ 200 then []
    else (r.listings.filter (fun l => l.id ∉ cachedIds)).map process_listing_dated

def missing_walk (oracle : Oracle) (cachedIds : List String) (missing : Nat) :
    List Nat → List Item → List Item × List Nat
  | [], acc => (acc, [])
  | p :: rest, acc =>
    let acc2 := acc ++ page_new_items oracle cachedIds p
    if acc2.length ≥ missing then (acc2, [p])
    else
      let res := missing_walk oracle cachedIds missing rest acc2
      (res.1, p :: res.2)

/-- Result of the backfill: merged items, the `[:20]` sample, and the
requested page numbers. -/
structure CompleteOut where
  items : List Item
  sample : List Item
  requests : List Nat
deriving Repr, DecidableEq

/-- `DiscogsService._fetch_missing_items_from_end_pages` (lines 653-787):
walk pages `max(1, total_pages - 2) .. total_pages`, inserting only
listings whose id is not in the cached set, stopping once
`missing_count` new items have been found; if the walk found nothing, a
single retry of the last page with `per_page=200` (`retry200` is that
response, `none` = exception) is filtered the same way.  Returns
`cached + new_items` and its first 20 items. -/
def fetch_missing_items_from_end_pages (oracle : Oracle) (retry200 : Option PageResp)
    (cached : List Item) (totalPages : Nat) (missing : Nat) : CompleteOut :=
  let cachedIds := cached.map (fun i => i.id)
  let startPage := max 1 (totalPages - 2)
  let pageRange := List.range' startPage (totalPages + 1 - startPage)
  let walk := missing_walk oracle cachedIds missing pageRange []
  if walk.1.isEmpty ∧ missing > 0 then
    let extra : List Item :=
      match retry200 with
      | none => []
      | some r =>
        if r.status = 200 then
          (r.listings.filter (fun l => l.id ∉ cachedIds)).map process_listing_dated
        else []
    ⟨cached ++ extra, (cached ++ extra).take 20, walk.2 ++ [totalPages]⟩
  else
    ⟨cached ++ walk.1, (cached ++ walk.1).take 20, walk.2⟩

/-- `DiscogsService._fetch_all_items_via_pagination` (lines 789-852), the
no-cache branch: sweep every page `1 .. total_pages`; failed pages
(non-2xx, 502, exception) are skipped (the 502 `continue` does *not*
retry the page); there is no early stop and no deduplication. -/
def fetch_all_items_via_pagination (oracle : Oracle) (totalPages : Nat) : CompleteOut :=
  let pageRange := List.range' 1 totalPages
  let items := pageRange.foldl
    (fun acc p =>
      match oracle p with
      | none => acc
      | some r => if r.status = 200 then acc ++ r.listings.map process_listing_dated else acc)
    []
  ⟨items, items.take 20, pageRange⟩

/-- `DiscogsService.fetch_seller_inventory_complete` (lines 592-651): probe
page 1 (failure or exception returns the cached list unchanged); a probed
page count over 100 returns the cached list unchanged (its first 20 items
as sample when non-empty); with cached data, a gap
`total_items - cached_count <= 0` returns the cache unchanged, otherwise
the missing items are fetched from the end pages; with no cached data
everything is fetched page by page. -/
def fetch_seller_inventory_complete (oracle : Oracle) (retry200 : Option PageResp)
    (cached : List Item) : CompleteOut :=
  match oracle 1 with
  | none => ⟨cached, [], [1]⟩
  | some r1 =>
    if r1.status ≠ 200 then ⟨cached, [], [1]⟩
    else
      let totalPages := r1.pagination.pages
      let totalItems := r1.pagination.items
      if totalPages > 100 then
        if cached.isEmpty then ⟨[], [], [1]⟩ else ⟨cached, cached.take 20, [1]⟩
      else if ¬cached.isEmpty then
        if totalItems ≤ cached.length then ⟨cached, cached.take 20, [1]⟩
        else
          let out := fetch_missing_items_from_end_pages oracle retry200 cached totalPages
            (totalItems - cached.length)
          ⟨out.items, out.sample, 1 :: out.requests⟩
      else
        let out := fetch_all_items_via_pagination oracle totalPages
        ⟨out.items, out.sample, 1 :: out.requests⟩

/-- One entry of the user's mirrored want-list
(`get_user_wantlist`, lines 282-293): `id`, `release_id` (possibly
`None`), `title`, plus descriptive metadata.  The dicts carry an
`'artists'` list but no `'artist'` key; `artist` models
`wantlist_item.get('artist', '')` (always `""` for dicts the source
builds). -/
structure WantItem where
  id : Option String
  release_id : Option String
  title : String
  artist : String
deriving Repr, DecidableEq

/-- Python `str.lower()` (ASCII case folding suffices for the verified
statements). -/
def py_lower (s : String) : String := ⟨s.data.map Char.toLower⟩

/-- Python `str.strip()`: drop leading and trailing whitespace. -/
def py_strip (s : String) : String :=
  ⟨((s.data.dropWhile Char.isWhitespace).reverse.dropWhile Char.isWhitespace).reverse⟩

/-- Word accumulator for `py_split`: `cur` is the current word reversed. -/
def py_split_aux (p : Char → Bool) : List Char → List Char → List String
  | [], cur => if cur.isEmpty then [] else [⟨cur.reverse⟩]
  | c :: rest, cur =>
    if p c then
      if cur.isEmpty then py_split_aux p rest []
      else ⟨cur.reverse⟩ :: py_split_aux p rest []
    else py_split_aux p rest (c :: cur)

/-- Python `str.split()` with no argument: split on whitespace runs,
discarding empty fragments. -/
def py_split (s : String) : List String :=
  py_split_aux Char.isWhitespace s.data []

/-- Python `s in t` on strings: `s` occurs as a contiguous substring of
`t` (the empty string occurs in everything). -/
def py_in (s t : String) : Bool :=
  (List.range (t.data.length + 1)).any (fun i => s.data.isPrefixOf (t.data.drop i))

/-- `len(set(ws))`: number of distinct words. -/
def py_set_card (ws : List String) : Nat := ws.dedup.length

/-- `len(set(w1).intersection(set(w2)))`. -/
def py_set_inter_card (w1 w2 : List String) : Nat :=
  (w1.dedup.filter (fun w => w2.contains w)).length

/-- The source's float comparison `num / den >= tn / td` (a quotient of
small word counts against a decimal threshold literal), performed exactly
by cross-multiplication: for the token counts involved, double-precision
rounding cannot flip this comparison against the exact rational value, so
the integer form is faithful. -/
def float_ratio_ge (num den tn td : Nat) : Bool :=
  td * num ≥ tn * den

/-- The *effective* `WantlistMatchingService._is_similar_title`
(lines 428-455).  The class body defines `_is_similar_title` twice; this
second definition shadows the first (lines 378-404, the stop-word /
0.4-threshold variant), so the bound method lowercases and strips,
accepts equality or substring containment, and otherwise requires a
whitespace-token set-overlap ratio of at least 0.7 — with no punctuation
stripping and no stop-word removal. -/
def is_similar_title (title1 title2 : String) : Bool :=
  if title1 = "" ∨ title2 = "" then false
  else
    let t1 := py_strip (py_lower title1)
    let t2 := py_strip (py_lower title2)
    if t1 = t2 then true
    else if py_in t1 t2 ∨ py_in t2 t1 then true
    else
      let w1 := py_split t1
      let w2 := py_split t2
      if w1.isEmpty ∨ w2.isEmpty then false
      else float_ratio_ge (py_set_inter_card w1 w2)
        (max (py_set_card w1) (py_set_card w2)) 7 10

/-- `WantlistMatchingService._is_similar_artist` (lines 406-426):
equality, substring containment, or word set-overlap ratio ≥ 0.5. -/
def is_similar_artist (artist1 artist2 : String) : Bool :=
  if artist1 = artist2 then true
  else if py_in artist1 artist2 ∨ py_in artist2 artist1 then true
  else
    let w1 := py_split artist1
    let w2 := py_split artist2
    if w1.isEmpty ∨ w2.isEmpty then false
    else float_ratio_ge (py_set_inter_card w1 w2)
      (max (py_set_card w1) (py_set_card w2)) 5 10

/-- `WantlistMatchingService._is_match` (lines 501-528): exact
release-id comparison first (note `str(None) = "None"`), then the fuzzy
title fallback; the artist check only applies when both artist strings
are non-empty. -/
def is_match (item : Item) (w : WantItem) : Bool :=
  let ir := py_str_of_opt item.release_id
  let wr := py_str_of_opt w.release_id
  if ir ≠ "" ∧ wr ≠ "" ∧ ir = wr then true
  else
    let it := py_strip (py_lower item.title)
    let ia := py_strip (py_lower item.artist)
    let wt := py_strip (py_lower w.title)
    let wa := py_strip (py_lower w.artist)
    if it ≠ "" ∧ wt ≠ "" then
      if is_similar_title it wt then
        if ia = "" ∨ wa = "" ∨ is_similar_artist ia wa then true else false
      else false
    else false

/-- A match record as emitted by the matching loops.  The dict built by
`_find_matches_for_seller_name` has *no* `'match_confidence'` key
(`none`); `_find_matches_for_seller_inventory` stores the string
`'exact'`. -/
structure MatchRec where
  listing_id : String
  release_id : Option String
  title : String
  wantlist_id : Option String
  match_confidence : Option String
deriving Repr, DecidableEq

/-- The want-list release-id set (`if release_id:` skips `None` and empty
values; others are stringified), lines 167-171 / 282. -/
def wantlist_release_ids (wantlist : List WantItem) : List String :=
  wantlist.filterMap
    (fun w => match w.release_id with
      | some s => if s = "" then none else some s
      | none => none)

/-- The per-inventory-item body of the matching loop of
`_find_matches_for_seller_name` (lines 174-223): the fast path emits a
record for the first want-list item with the same stringified release id;
otherwise the first want-list item passing `_is_match` is used.  Either
way the emitted dict has no `'match_confidence'` key. -/
def find_match_for_item (wantlist : List WantItem) (ids : List String) (item : Item) :
    Option MatchRec :=
  let rid := py_str_of_opt item.release_id
  if rid ≠ "" ∧ ids.contains rid then
    match wantlist.find? (fun w => py_str_of_opt w.release_id = rid) with
    | some w => some ⟨item.id, item.release_id, item.title, w.id, none⟩
    | none => none
  else
    match wantlist.find? (fun w => is_match item w) with
    | some w => some ⟨item.id, item.release_id, item.title, w.id, none⟩
    | none => none

/-- The matching loop of `_find_matches_for_seller_name`
(lines 162-224): each inventory item contributes at most one record. -/
def find_matches_for_seller_name (inventory : List Item) (wantlist : List WantItem) :
    List MatchRec :=
  let ids := wantlist_release_ids wantlist
  inventory.filterMap (find_match_for_item wantlist ids)

/-- The per-item body of the matching loop of
`_find_matches_for_seller_inventory` (lines 284-310): release-id match
only, the record carrying `'match_confidence': 'exact'` (a string
literal, not a number). -/
def find_exact_for_item (wantlist : List WantItem) (ids : List String) (item : Item) :
    Option MatchRec :=
  let rid := py_str_of_opt item.release_id
  if rid ≠ "" ∧ ids.contains rid then
    match wantlist.find? (fun w => py_str_of_opt w.release_id = rid) with
    | some w => some ⟨item.id, item.release_id, item.title, w.id, some "exact"⟩
    | none => none
  else none

/-- The matching loop of `_find_matches_for_seller_inventory`
(lines 277-311). -/
def find_matches_for_seller_inventory (inventory : List Item) (wantlist : List WantItem) :
    List MatchRec :=
  let ids := wantlist_release_ids wantlist
  inventory.filterMap (find_exact_for_item wantlist ids)

/-- The state of `DiscogsRateLimit` (lines 8-29): fixed-window counter.
Times are epoch seconds. -/
structure RateLimitState where
  calls : Nat
  reset_time : Nat
  max_calls_per_minute : Nat
deriving Repr, DecidableEq

/-- `DiscogsRateLimit.check_limit` (lines 15-29): reset the window if it
has passed, then either raise `"Rate limit exceeded. Wait N seconds"`
(returning the possibly-reset state, since the raise happens before the
increment) or increment the counter. -/
def check_limit (st : RateLimitState) (now : Nat) : Except String Unit × RateLimitState :=
  let st1 := if now ≥ st.reset_time
    then { st with calls := 0, reset_time := now + 60 } else st
  if st1.calls ≥ st1.max_calls_per_minute then
    (Except.error ("Rate limit exceeded. Wait " ++ toString (st1.reset_time - now) ++ " seconds"),
      st1)
  else (Except.ok (), { st1 with calls := st1.calls + 1 })

/-- `DiscogsService.fetch_listing_data` (lines 116-152): the limiter check
and the upstream call both sit inside a `try` whose handler re-raises
*every* exception wrapped as
`"Erreur lors de la récupération des données Discogs: …"` — including the
limiter's own `RateLimitExceeded`.  The upstream interaction is abstracted
as `upstream : Except String α` (its error is whatever exception the
Discogs client raised, stringified). -/
def fetch_listing_data {α : Type} (st : RateLimitState) (now : Nat)
    (upstream : Except String α) : Except String α × RateLimitState :=
  match check_limit st now with
  | (Except.error e, st1) =>
    (Except.error ("Erreur lors de la récupération des données Discogs: " ++ e), st1)
  | (Except.ok _, st1) =>
    match upstream with
    | Except.error e =>
      (Except.error ("Erreur lors de la récupération des données Discogs: " ++ e), st1)
    | Except.ok d => (Except.ok d, st1)

/-- `fetch_seller_inventory` with the global limiter state threaded
through: the source body (lines 305-404) contains no
`rate_limiter.check_limit()` call, so the state passes through untouched
while the HTTP page requests are issued. -/
def fetch_seller_inventory_rl (st : RateLimitState) (oracle : Oracle) :
    FetchOut × RateLimitState :=
  (fetch_seller_inventory oracle, st)

/-- The spec's stop-word list (identical to the `common_words` of the
shadowed first `_is_similar_title`, lines 380-381). -/
def stop_words : List String :=
  ["the", "a", "an", "and", "or", "but", "in", "on", "at", "to", "for", "of", "with", "by"]

/-- The spec's title normalization for claim C4: lowercase, strip
punctuation (keep `\w` tokens, i.e. alphanumerics and underscore), drop
stop-words. -/
def spec_tokens (t : String) : List String :=
  (py_split_aux (fun c => ¬(c.isAlphanum ∨ c = '_')) (py_lower t).data []).filter
    (fun w => decide (w ∉ stop_words))

/-- Rejoin normalized tokens with single spaces (the normalized title as
a string, for the spec's substring comparison). -/
def join_spaces : List String → String
  | [] => ""
  | [w] => w
  | w :: rest => w ++ " " ++ join_spaces rest

/-- Modelled from the spec's words (§4.5 / claim C4), for comparison with
the code's effective `is_similar_title`: after normalizing both titles
(strip punctuation, lowercase, drop stop-words), match iff the token
overlap ratio is ≥ 0.4 or one normalized title is a substring of the
other.  The overlap ratio is the shadowed first definition's
`matches / max(len(words1), len(words2))` over token lists. -/
def spec_similar_title (t1 t2 : String) : Bool :=
  let w1 := spec_tokens t1
  let w2 := spec_tokens t2
  if w1.isEmpty ∨ w2.isEmpty then false
  else
    float_ratio_ge (w1.filter (fun w => w2.contains w)).length
        (max w1.length w2.length) 4 10
      ∨ py_in (join_spaces w1) (join_spaces w2)
      ∨ py_in (join_spaces w2) (join_spaces w1)

/-- The item appended by the smart incremental fetch is strictly newer
than the watermark: a present, non-empty `listed_date` with `wm < date`. -/
def strictly_newer (wm : String) (i : Item) : Bool :=
  match i.listed_date with
  | some d => d ≠ "" ∧ py_str_lt wm d
  | none => false

/-- A page that lets the smart incremental loop continue past it: a 200
response with a full page (100 or more listings) none of which stops the
`take_newer` scan. -/
def clean_full_page (o : Oracle) (wm : String) (q : Nat) : Prop :=
  ∃ r, o q = some r ∧ r.status = 200 ∧ r.listings ≠ []
    ∧ ¬r.listings.length < 100 ∧ (take_newer wm r.listings).2 = false

/-- Ordering on optional watermark values: `none` (no watermark yet) is
below everything, and present watermarks compare as strings. -/
def date_le : Option String → Option String → Prop
  | none, _ => True
  | some _, none => False
  | some x, some y => py_str_le x y = true

/- Concrete inputs used by counterexamples and witnesses. -/

/-- A minimal listing. -/
def sample_listing : Listing :=
  ⟨"x", none, "t", "", "For Sale"⟩

/-- A listing with `listed` date `d`. -/
def sample_listing_dated (d : String) : Listing :=
  ⟨"x", none, "t", d, "For Sale"⟩

/-- A full (100-listing) page-1 response reporting a 5-page catalog. -/
def sample_full_page : PageResp :=
  ⟨200, List.replicate 100 sample_listing, ⟨5, 450⟩⟩

/-- Page 1 succeeds with a full page, page 2 answers 500: a full fetch
that fails mid-walk after one page. -/
def oracle_midwalk_fail : Oracle := fun p =>
  if p = 1 then some sample_full_page
  else if p = 2 then some ⟨500, [], ⟨5, 450⟩⟩
  else none

/-- Page 1 already answers 500: a full fetch that fails on its probe. -/
def oracle_probe_fail : Oracle := fun _ => some ⟨500, [], ⟨1, 0⟩⟩

/-- Page 1 reports a 150-page catalog: a seller beyond the pagination
ceiling. -/
def oracle_large : Oracle := fun _ =>
  some ⟨200, [⟨"B1", none, "t", "", "For Sale"⟩], ⟨150, 15000⟩⟩

/-- A page-1 probe reporting a one-page, one-item catalog. -/
def oracle_tiny : Oracle := fun _ =>
  some ⟨200, [⟨"A", none, "t", "", "For Sale"⟩], ⟨1, 1⟩⟩

/-- Incremental oracle: page 1 is a full page of listings dated `"b"`,
page 2 starts with a listing dated `"a"` (not strictly newer than the
watermark `"a"`). -/
def oracle_inc : Oracle := fun p =>
  if p = 1 then some ⟨200, List.replicate 100 (sample_listing_dated "b"), ⟨2, 101⟩⟩
  else if p = 2 then some ⟨200, [sample_listing_dated "a"], ⟨2, 101⟩⟩
  else none

/-- A cached item distinct from anything the sample oracles return. -/
def prior_item : Item :=
  ⟨"PRIOR", none, "prior title", "u", "For Sale", some "a", ""⟩

/-- Metadata matching a one-item cached snapshot written at time 0. -/
def prior_md : Metadata :=
  ⟨"seller", 1, 0, 0, false, ["PRIOR"], some "a"⟩

/-- A duplicate-id item for the merge counterexample. -/
def dup_item : Item := ⟨"1", none, "t", "u", "For Sale", some "d", ""⟩

/-- Metadata for the merge counterexample. -/
def dup_md : Metadata := ⟨"s", 1, 0, 0, false, ["1"], some "d"⟩

/-- Inventory item whose release id `7` matches `want_same_release`. -/
def item_release7 : Item := ⟨"L1", some "7", "Title A", "u", "For Sale", none, ""⟩

/-- Want-list entry with release id `7` and a dissimilar title. -/
def want_release7 : WantItem := ⟨some "W1", some "7", "Completely Different", ""⟩

/-- Inventory item with release id `1` and title `"hello world"`. -/
def item_fuzzy : Item := ⟨"L2", some "1", "hello world", "u", "For Sale", none, ""⟩

/-- Want-list entry with a different release id but an identical title:
matched by the fuzzy fallback. -/
def want_fuzzy : WantItem := ⟨some "W2", some "2", "hello world", ""⟩

/-! ## Helper lemmas -/

theorem fetch_seller_inventory_requests_cons (o : Oracle) :
    ∃ t, (fetch_seller_inventory o).requests = 1 :: t := by
  unfold fetch_seller_inventory
  rcases o 1 with _ | r1
  · exact ⟨[], rfl⟩
  · simp only
    split
    · exact ⟨[], rfl⟩
    · split
      · exact ⟨[], rfl⟩
      · rcases fetch_pages_from o 199 2 (r1.listings.map process_listing) with ⟨_ | inv, reqs⟩
        · exact ⟨reqs, rfl⟩
        · exact ⟨reqs, rfl⟩

theorem chars_lt_nil (x : List Char) : chars_lt x [] = false := by
  cases x <;> rfl

theorem chars_lt_irrefl (x : List Char) : chars_lt x x = false := by
  induction x with
  | nil => rfl
  | cons a as ih => simp [chars_lt, lt_irrefl, ih]

theorem chars_lt_trans {x y z : List Char} (h1 : chars_lt x y = true)
    (h2 : chars_lt y z = true) : chars_lt x z = true := by
  induction x generalizing y z with
  | nil =>
    cases z with
    | nil =>
      cases y with
      | nil => exact absurd h1 (by simp [chars_lt])
      | cons b bs => exact absurd h2 (by simp [chars_lt_nil])
    | cons c cs => rfl
  | cons a as ih =>
    cases y with
    | nil => exact absurd h1 (by simp [chars_lt_nil])
    | cons b bs =>
      cases z with
      | nil => exact absurd h2 (by simp [chars_lt_nil])
      | cons c cs =>
        simp only [chars_lt] at h1 h2 ⊢
        rcases lt_trichotomy a b with hab | hab | hab
        · rcases lt_trichotomy b c with hbc | hbc | hbc
          · simp [lt_trans hab hbc]
          · subst hbc
            simp [hab]
          · rw [if_neg (lt_asymm hbc), if_pos hbc] at h2
            cases h2
        · subst hab
          rw [if_neg (lt_irrefl a), if_neg (lt_irrefl a)] at h1
          rcases lt_trichotomy a c with hac | hac | hac
          · simp [hac]
          · subst hac
            rw [if_neg (lt_irrefl a), if_neg (lt_irrefl a)] at h2 ⊢
            exact ih h1 h2
          · rw [if_neg (lt_asymm hac), if_pos hac] at h2
            cases h2
        · rw [if_neg (lt_asymm hab), if_pos hab] at h1
          cases h1

theorem chars_eq_of_not_lt {x y : List Char} (h1 : chars_lt x y = false)
    (h2 : chars_lt y x = false) : x = y := by
  induction x generalizing y with
  | nil =>
    cases y with
    | nil => rfl
    | cons b bs => exact absurd h1 (by simp [chars_lt])
  | cons a as ih =>
    cases y with
    | nil => exact absurd h2 (by simp [chars_lt])
    | cons b bs =>
      simp only [chars_lt] at h1 h2
      rcases lt_trichotomy a b with hab | hab | hab
      · rw [if_pos hab] at h1
        cases h1
      · subst hab
        rw [if_neg (lt_irrefl a), if_neg (lt_irrefl a)] at h1 h2
        rw [ih h1 h2]
      · rw [if_pos hab] at h2
        cases h2

theorem py_str_le_refl (s : String) : py_str_le s s = true := by
  simp [py_str_le, py_str_lt, chars_lt_irrefl]

theorem py_str_le_empty (s : String) : py_str_le "" s = true := by
  simp only [py_str_le, py_str_lt]
  show (!chars_lt s.data ("" : String).data) = true
  simp [chars_lt_nil]

theorem py_str_lt_asymm {a b : String} (h : py_str_lt a b = true) :
    py_str_lt b a = false := by
  cases hv : py_str_lt b a
  · rfl
  · exfalso
    have h2 : chars_lt b.data a.data = true := hv
    have h3 : chars_lt a.data b.data = true := h
    have := chars_lt_trans h3 h2
    rw [chars_lt_irrefl] at this
    cases this

theorem py_str_le_of_lt {a b : String} (h : py_str_lt a b = true) :
    py_str_le a b = true := by
  simp [py_str_le, py_str_lt_asymm h]

theorem py_str_le_not_lt {a b : String} (h : py_str_le a b = true) :
    py_str_lt b a = false := by
  cases hv : py_str_lt b a
  · rfl
  · exfalso
    simp [py_str_le, hv] at h

theorem py_str_le_trans {a b c : String} (h1 : py_str_le a b = true)
    (h2 : py_str_le b c = true) : py_str_le a c = true := by
  have hba := py_str_le_not_lt h1
  have hcb := py_str_le_not_lt h2
  cases hca : py_str_lt c a
  · simp [py_str_le, hca]
  · exfalso
    cases hab : py_str_lt a b
    · have hEq : a.data = b.data :=
        chars_eq_of_not_lt (x := a.data) (y := b.data) hab hba
      have hca2 : chars_lt c.data b.data = true := by
        have : chars_lt c.data a.data = true := hca
        rw [hEq] at this
        exact this
      have : py_str_lt c b = true := hca2
      rw [this] at hcb
      cases hcb
    · have : chars_lt c.data b.data = true :=
        chars_lt_trans (x := c.data) (y := a.data) (z := b.data) hca hab
      have h4 : py_str_lt c b = true := this
      rw [h4] at hcb
      cases hcb

theorem date_le_refl (a : Option String) : date_le a a := by
  cases a <;> simp [date_le, py_str_le_refl]

theorem date_le_trans {a b c : Option String} (h1 : date_le a b) (h2 : date_le b c) :
    date_le a c := by
  cases a <;> cases b <;> cases c <;> simp_all [date_le]
  exact py_str_le_trans h1 h2

theorem scan_most_recent_ge (init : Option String) (items : List Item) :
    date_le init (scan_most_recent init items) := by
  induction items generalizing init with
  | nil => exact date_le_refl init
  | cons i rest ih =>
    have hstep : date_le init
        (match i.listed_date with
          | none => init
          | some d => if d ≠ "" ∧ wm_bump init d then some d else init) := by
      rcases i.listed_date with _ | d
      · exact date_le_refl init
      · simp only
        split
        · rename_i hcond
          rcases init with _ | w
          · simp [date_le]
          · have hb : wm_bump (some w) d = true := hcond.2
            simp only [wm_bump] at hb
            show py_str_le w d = true
            rcases of_decide_eq_true hb with h | h
            · rw [h]; exact py_str_le_empty d
            · exact py_str_le_of_lt h
        · exact date_le_refl init
    exact date_le_trans hstep (ih _)

/-! ## Claim C2 -/

/-- C2 (corrected).  The merge of a freshly fetched batch into the cached
collection in `_get_incremental_seller_inventory` is plain concatenation:
no deduplication by `id` happens, the merged list is exactly
`cached ++ newListings`, the stored `item_count` is the sum of the two
lengths, and each `id`'s number of occurrences adds up — so a batch that
duplicates existing ids grows the snapshot instead of leaving it
unchanged. -/
theorem c2_merge_is_plain_concat (cached : List Item) (md : Metadata)
    (newListings : List Item) (now : Nat) :
    (incremental_update cached md newListings now).1 = cached ++ newListings
    ∧ (incremental_update cached md newListings now).2.count
        = cached.length + newListings.length
    ∧ ∀ s : String,
        (incremental_update cached md newListings now).1.countP (fun i => i.id == s)
          = cached.countP (fun i => i.id == s) + newListings.countP (fun i => i.id == s) := by
  refine ⟨rfl, ?_, ?_⟩
  · simp [incremental_update, merge_new_listings]
  · intro s
    simp [incremental_update, merge_new_listings, List.countP_append]

/-- C2 counterexample.  Merging a one-item batch whose `id` (`"1"`)
already occurs in the cached collection does *not* leave the item set and
`item_count` unchanged: the count becomes 2 and the id `"1"` occurs twice
in the merged collection, violating the claimed at-most-once invariant. -/
theorem c2_counterexample :
    (incremental_update [dup_item] dup_md [dup_item] 5).2.count = 2
    ∧ (incremental_update [dup_item] dup_md [dup_item] 5).1.countP
        (fun i => i.id == "1") = 2
    ∧ (incremental_update [dup_item] dup_md [dup_item] 5).1 ≠ [dup_item] := by
  refine ⟨rfl, by decide, by decide⟩

/-! ## Claim C5 -/

/-- C5 (corrected).  No match record ever carries a numeric confidence:
every record emitted by the seller-name matching loop has *no*
`match_confidence` entry at all, and every record emitted by the
order-based matching loop carries the string literal `"exact"` — for
fuzzy matches no title-similarity ratio is recorded anywhere. -/
theorem c5_confidence_is_never_numeric (inventory : List Item) (wantlist : List WantItem) :
    (find_matches_for_seller_name inventory wantlist).all
        (fun r => r.match_confidence == none) = true
    ∧ (find_matches_for_seller_inventory inventory wantlist).all
        (fun r => r.match_confidence == some "exact") = true := by
  constructor
  · simp only [find_matches_for_seller_name, List.all_eq_true]
    intro r hr
    simp only [List.mem_filterMap] at hr
    obtain ⟨item, -, hf⟩ := hr
    simp only [find_match_for_item] at hf
    split at hf
    · split at hf
      · cases hf; rfl
      · cases hf
    · split at hf
      · cases hf; rfl
      · cases hf
  · simp only [find_matches_for_seller_inventory, List.all_eq_true]
    intro r hr
    simp only [List.mem_filterMap] at hr
    obtain ⟨item, -, hf⟩ := hr
    simp only [find_exact_for_item] at hf
    split at hf
    · split at hf
      · cases hf; rfl
      · cases hf
    · cases hf

/-- C5 counterexample.  For an inventory item whose `catalog_ref_id`
(`"7"`) equals a want-list entry's, the emitted record's confidence is
`none` (seller-name loop: the dict has no `match_confidence` key) or the
*string* `"exact"` (order loop) — not the number 1.0; and a fuzzy title
match (identical titles, distinct release ids) also carries no
confidence value at all. -/
theorem c5_counterexample :
    (find_matches_for_seller_name [item_release7] [want_release7]).map
        (fun r => r.match_confidence) = [none]
    ∧ (find_matches_for_seller_inventory [item_release7] [want_release7]).map
        (fun r => r.match_confidence) = [some "exact"]
    ∧ (find_matches_for_seller_name [item_fuzzy] [want_fuzzy]).map
        (fun r => r.match_confidence) = [none] := by
  refine ⟨rfl, rfl, rfl⟩

/-! ## Claim C6 -/

/-- C6 (corrected).  The paginated seller-inventory fetch makes its HTTP
page requests without ever consulting the rate limiter — the limiter
state passes through unchanged while at least one page request is issued —
and when the limiter does raise (inside `fetch_listing_data`, one of the
few operations that call `check_limit`), the `RateLimitExceeded` error is
caught and re-raised rewrapped in the generic
"Erreur lors de la récupération des données Discogs" message instead of
propagating unchanged. -/
theorem c6_limiter_not_consulted_and_rewrapped :
    (∀ (st : RateLimitState) (o : Oracle),
        (fetch_seller_inventory_rl st o).2 = st
          ∧ (fetch_seller_inventory_rl st o).1.requests ≠ [])
    ∧ ∀ {α : Type} (st : RateLimitState) (now : Nat) (m : String)
        (up : Except String α),
        (check_limit st now).1 = Except.error m →
        (fetch_listing_data st now up).1
          = Except.error ("Erreur lors de la récupération des données Discogs: " ++ m) := by
  constructor
  · intro st o
    refine ⟨rfl, ?_⟩
    obtain ⟨t, ht⟩ := fetch_seller_inventory_requests_cons o
    simp [fetch_seller_inventory_rl, ht]
  · intro α st now m up h
    rcases hc : check_limit st now with ⟨r, st1⟩
    cases r with
    | error e =>
      rw [hc] at h
      simp only at h
      injection h with h
      subst h
      unfold fetch_listing_data
      rw [hc]
    | ok u =>
      rw [hc] at h
      simp only at h
      cases h

/-- C6 counterexample.  With the limiter exhausted (60 calls in the
current window), `fetch_seller_inventory` still issues its page-1 HTTP
request and leaves the limiter state untouched — no `check_limit` call
happens — and `fetch_listing_data`, whose `check_limit` does raise,
surfaces the rewrapped French message rather than the limiter's own
`"Rate limit exceeded…"` error. -/
theorem c6_counterexample :
    (fetch_seller_inventory_rl ⟨60, 100, 60⟩ oracle_probe_fail).1.requests = [1]
    ∧ (fetch_seller_inventory_rl ⟨60, 100, 60⟩ oracle_probe_fail).2 = ⟨60, 100, 60⟩
    ∧ (check_limit ⟨60, 100, 60⟩ 50).1
        = Except.error "Rate limit exceeded. Wait 50 seconds"
    ∧ (fetch_listing_data (α := Unit) ⟨60, 100, 60⟩ 50 (Except.ok ())).1
        = Except.error
            "Erreur lors de la récupération des données Discogs: Rate limit exceeded. Wait 50 seconds"
    ∧ (fetch_listing_data (α := Unit) ⟨60, 100, 60⟩ 50 (Except.ok ())).1
        ≠ Except.error "Rate limit exceeded. Wait 50 seconds" := by
  refine ⟨rfl, rfl, rfl, rfl, ?_⟩
  intro hcontra
  have hinj : ("Erreur lors de la récupération des données Discogs: Rate limit exceeded. Wait 50 seconds" : String)
      = "Rate limit exceeded. Wait 50 seconds" := by
    have hval : (fetch_listing_data (α := Unit) ⟨60, 100, 60⟩ 50 (Except.ok ())).1
        = Except.error
            "Erreur lors de la récupération des données Discogs: Rate limit exceeded. Wait 50 seconds" :=
      rfl
    rw [hval] at hcontra
    injection hcontra
  exact absurd hinj (by decide)

/-- C6 witness: the rewrap conclusion of the main theorem at a concrete
exhausted limiter state. -/
theorem c6_witness :
    (fetch_listing_data (α := Unit) ⟨60, 100, 60⟩ 50 (Except.ok ())).1
      = Except.error ("Erreur lors de la récupération des données Discogs: "
          ++ "Rate limit exceeded. Wait 50 seconds") :=
  c6_limiter_not_consulted_and_rewrapped.2 ⟨60, 100, 60⟩ 50
    "Rate limit exceeded. Wait 50 seconds" (Except.ok ()) (by rfl)

/-! ## Claim C4 -/

/-- C4 (corrected).  The fuzzy fallback that is actually bound at runtime
is the *second* `_is_similar_title` definition, which shadows the
stop-word / 0.4-threshold variant the spec describes: for non-empty
titles, a title match holds exactly when the lowercased, stripped titles
are equal, one is a substring of the other, or both have words and the
whitespace-token set-overlap ratio is at least 0.7 (no punctuation
stripping, no stop-word removal); and for release-id-mismatched pairs,
`_is_match` requires non-empty titles, that title similarity, and applies
the artist-similarity requirement only when *both* artist strings are
non-empty. -/
theorem c4_effective_fuzzy_rule (t1 t2 : String) (h1 : t1 ≠ "") (h2 : t2 ≠ "") :
    (is_similar_title t1 t2 = true ↔
      (py_strip (py_lower t1) = py_strip (py_lower t2)
        ∨ py_in (py_strip (py_lower t1)) (py_strip (py_lower t2)) = true
        ∨ py_in (py_strip (py_lower t2)) (py_strip (py_lower t1)) = true
        ∨ (py_split (py_strip (py_lower t1)) ≠ []
            ∧ py_split (py_strip (py_lower t2)) ≠ []
            ∧ float_ratio_ge
                (py_set_inter_card (py_split (py_strip (py_lower t1)))
                  (py_split (py_strip (py_lower t2))))
                (max (py_set_card (py_split (py_strip (py_lower t1))))
                  (py_set_card (py_split (py_strip (py_lower t2))))) 7 10 = true)))
    ∧ ∀ (item : Item) (w : WantItem),
        ¬(py_str_of_opt item.release_id ≠ "" ∧ py_str_of_opt w.release_id ≠ ""
            ∧ py_str_of_opt item.release_id = py_str_of_opt w.release_id) →
        (is_match item w = true ↔
          (py_strip (py_lower item.title) ≠ "" ∧ py_strip (py_lower w.title) ≠ ""
            ∧ is_similar_title (py_strip (py_lower item.title))
                (py_strip (py_lower w.title)) = true
            ∧ (py_strip (py_lower item.artist) = "" ∨ py_strip (py_lower w.artist) = ""
                ∨ is_similar_artist (py_strip (py_lower item.artist))
                    (py_strip (py_lower w.artist)) = true))) := by
  constructor
  · unfold is_similar_title
    rw [if_neg (by simp [h1, h2])]
    dsimp only
    split_ifs with heq hsub hemp <;>
      simp_all [List.isEmpty_iff] <;> tauto
  · intro item w hid
    unfold is_match
    rw [if_neg hid]
    dsimp only
    split_ifs with ht hsim hart <;> simp_all

/-- C4 counterexample.  For the titles `"the dark side"` and
`"dark moon"` (no identifier match, unknown creators) the spec's rule
declares a match — after dropping the stop-word `"the"` the token overlap
ratio is 1/2 ≥ 0.4 — but the code's effective predicate (0.7 threshold,
no stop-word removal) rejects it, and `_is_match` finds no match. -/
theorem c4_counterexample :
    spec_similar_title "the dark side" "dark moon" = true
    ∧ is_similar_title "the dark side" "dark moon" = false
    ∧ is_match ⟨"L1", some "1", "the dark side", "u", "For Sale", none, ""⟩
        ⟨some "W1", some "2", "dark moon", ""⟩ = false := by
  refine ⟨by decide, by decide, by decide⟩

/-- C4 witness: the characterization applied at a concrete pair of equal
titles. -/
theorem c4_witness : is_similar_title "abc" "abc" = true :=
  (c4_effective_fuzzy_rule "abc" "abc" (by decide) (by decide)).1.mpr
    (Or.inl (by decide))

/-! ## Claim C8 -/

/-- C8 (confirmed).  With `inventory_cache_duration = 3600` and
`large_seller_cache_duration = 7200`, and metadata whose stored
`is_large_seller` flag agrees with the count-derived predicate (as every
writer in the source guarantees), a cached non-empty snapshot whose age
`now - cached_at` is at most the applicable TTL is returned unchanged
with zero page requests — the boundary is inclusive — and one whose age
exceeds the TTL triggers a refresh attempt (at least one page request is
issued). -/
theorem c8_ttl_boundary (o oi : Oracle) (seller : String) (c : CacheState) (now : Nat)
    (cached : List Item) (md : Metadata)
    (hsnap : c.snapshot = some cached) (hmeta : c.metadata = some md)
    (hne : cached ≠ [])
    (hcons : md.is_large_seller = is_large_seller md.count) :
    (now - md.cached_at ≤
        (if md.is_large_seller then large_seller_cache_duration
         else inventory_cache_duration) →
      get_incremental_seller_inventory o oi seller c now false
        = ⟨some cached, some md, c, []⟩)
    ∧ (now - md.cached_at >
        (if md.is_large_seller then large_seller_cache_duration
         else inventory_cache_duration) →
      (get_incremental_seller_inventory o oi seller c now false).requests ≠ []) := by
  have hget : get_cached_seller_inventory c now
      = if now - md.cached_at >
            (if md.is_large_seller then large_seller_cache_duration
             else inventory_cache_duration)
        then (none, none) else (some cached, some md) := by
    unfold get_cached_seller_inventory
    rw [hmeta]
    dsimp only
    rw [← hcons]
    by_cases hage : now - md.cached_at >
        (if md.is_large_seller then large_seller_cache_duration
         else inventory_cache_duration)
    · rw [if_pos hage, if_pos hage]
    · rw [if_neg hage, if_neg hage, hsnap]
  constructor
  · intro hle
    have hnot : ¬(now - md.cached_at >
        (if md.is_large_seller then large_seller_cache_duration
         else inventory_cache_duration)) := not_lt.mpr hle
    unfold get_incremental_seller_inventory
    rw [if_neg (by simp), hget, if_neg hnot]
    dsimp only
    rw [if_neg (by simp [hne]), if_pos hle]
  · intro hgt
    unfold get_incremental_seller_inventory
    rw [if_neg (by simp), hget, if_pos hgt]
    unfold full_fetch_and_cache
    dsimp only
    obtain ⟨t, ht⟩ := fetch_seller_inventory_requests_cons o
    split <;> simp [ht]

/-- C8 witness: with the regular TTL of 3600 s, a snapshot aged exactly
3600 s is served from cache with zero requests (inclusive boundary), and
one aged 3601 s issues at least one request. -/
theorem c8_witness :
    (get_incremental_seller_inventory oracle_probe_fail oracle_probe_fail "seller"
        ⟨some [prior_item], some prior_md⟩ 3600 false
      = ⟨some [prior_item], some prior_md, ⟨some [prior_item], some prior_md⟩, []⟩)
    ∧ (get_incremental_seller_inventory oracle_probe_fail oracle_probe_fail "seller"
        ⟨some [prior_item], some prior_md⟩ 3601 false).requests ≠ [] := by
  constructor
  · exact (c8_ttl_boundary oracle_probe_fail oracle_probe_fail "seller"
      ⟨some [prior_item], some prior_md⟩ 3600 [prior_item] prior_md rfl rfl
      (by decide) (by decide)).1 (by decide)
  · exact (c8_ttl_boundary oracle_probe_fail oracle_probe_fail "seller"
      ⟨some [prior_item], some prior_md⟩ 3601 [prior_item] prior_md rfl rfl
      (by decide) (by decide)).2 (by decide)

/-! ## Claim C3 -/

/-- C3 (corrected).  When the page-1 probe reports more than 100 pages,
`fetch_seller_inventory` returns the *empty* list (not the prior cached
items) without issuing any further page request; the synchronizer's
force-refresh then returns `(None, None)` and writes no metadata at all —
no record with `is_large_seller = true` is produced, and the prior cache
entry is left deleted.  The prior cached items are returned unchanged
only by the backfill path `fetch_seller_inventory_complete`.  Moreover
the `is_large_seller` predicate is computed from the *item count*
(`count ≥ 10000`), not from the probed page count. -/
theorem c3_ceiling_behaviour (o : Oracle) (retry : Option PageResp) (seller : String)
    (c : CacheState) (now : Nat) (cached : List Item) (r1 : PageResp)
    (h1 : o 1 = some r1) (hs : r1.status = 200) (hp : r1.pagination.pages > 100) :
    (fetch_seller_inventory o).items = []
    ∧ (fetch_seller_inventory o).requests = [1]
    ∧ force_refresh_seller_inventory o seller c now = ⟨none, none, ⟨none, none⟩, [1]⟩
    ∧ (fetch_seller_inventory_complete o retry cached).items = cached
    ∧ ∀ n : Nat, is_large_seller n = decide (10000 ≤ n) := by
  have hfetch : fetch_seller_inventory o = ⟨[], [1]⟩ := by
    unfold fetch_seller_inventory
    rw [h1]
    dsimp only
    rw [if_neg (by simp [hs]), if_pos hp]
  refine ⟨by rw [hfetch], by rw [hfetch], ?_, ?_, fun n => rfl⟩
  · unfold force_refresh_seller_inventory
    rw [hfetch]
    rfl
  · unfold fetch_seller_inventory_complete
    rw [h1]
    dsimp only
    rw [if_neg (by simp [hs]), if_pos hp]
    split
    · rename_i hemp
      simp [List.isEmpty_iff.mp hemp]
    · rfl

/-- C3 counterexample.  A probe reporting 150 pages with a prior cached
one-item snapshot: the full fetch returns `[]` rather than the prior
cached items, and force-refresh yields no metadata at all (so no
`is_large_seller = true` record) while deleting the prior entry; and the
code's `is_large_seller` flag is count-based — it is `true` for a
10000-item inventory even though such a seller can sit within the
100-page ceiling, and `false` for a 9999-item one regardless of pages. -/
theorem c3_counterexample :
    (fetch_seller_inventory oracle_large).items = []
    ∧ (fetch_seller_inventory oracle_large).items ≠ [prior_item]
    ∧ force_refresh_seller_inventory oracle_large "seller"
        ⟨some [prior_item], some prior_md⟩ 9
        = ⟨none, none, ⟨none, none⟩, [1]⟩
    ∧ is_large_seller 10000 = true
    ∧ is_large_seller 9999 = false := by
  refine ⟨rfl, by decide, rfl, rfl, rfl⟩

/-- C3 witness: the main theorem applied to the 150-page probe oracle
with a one-item prior cache. -/
theorem c3_witness :
    (fetch_seller_inventory oracle_large).items = []
    ∧ (fetch_seller_inventory oracle_large).requests = [1]
    ∧ force_refresh_seller_inventory oracle_large "s"
        ⟨some [prior_item], some prior_md⟩ 5 = ⟨none, none, ⟨none, none⟩, [1]⟩
    ∧ (fetch_seller_inventory_complete oracle_large none [prior_item]).items = [prior_item]
    ∧ ∀ n : Nat, is_large_seller n = decide (10000 ≤ n) :=
  c3_ceiling_behaviour oracle_large none "s" ⟨some [prior_item], some prior_md⟩ 5
    [prior_item] ⟨200, [⟨"B1", none, "t", "", "For Sale"⟩], ⟨150, 15000⟩⟩ rfl rfl
    (by decide)

/-! ## Claim C1 -/

/-- C1 (corrected).  Only when the full fetch comes back *empty* (page-1
failure, over-ceiling probe, or a raised exception such as a timed-out
page fetch) does the synchronizer skip writing and leave the cache as it
was; `force_refresh_seller_inventory`, however, deletes both cache keys
up front, so after it the prior snapshot never survives: the stored
snapshot is `none` (fetch empty — prior entry stays deleted) or exactly
the fetched items (which are a *partial* inventory when a mid-walk page
answers non-2xx). -/
theorem c1_no_partial_overwrite_fails (o oi : Oracle) (seller : String)
    (c : CacheState) (now : Nat) :
    ((fetch_seller_inventory o).items = [] →
      get_incremental_seller_inventory o oi seller c now true
        = ⟨none, none, c, (fetch_seller_inventory o).requests⟩)
    ∧ (force_refresh_seller_inventory o seller c now).cache.snapshot
        = (if (fetch_seller_inventory o).items.isEmpty then none
           else some (fetch_seller_inventory o).items)
    ∧ (force_refresh_seller_inventory o seller c now).cache.metadata
        = (if (fetch_seller_inventory o).items.isEmpty then none
           else some (mk_full_metadata seller (fetch_seller_inventory o).items now)) := by
  refine ⟨?_, ?_, ?_⟩
  · intro hemp
    unfold get_incremental_seller_inventory full_fetch_and_cache
    rw [if_pos rfl]
    dsimp only
    rw [if_pos (by simp [hemp])]
  · unfold force_refresh_seller_inventory
    dsimp only
    split <;> rename_i hcond <;> simp_all [cache_seller_inventory]
  · unfold force_refresh_seller_inventory
    dsimp only
    split <;> rename_i hcond <;> simp_all [cache_seller_inventory]

/-- C1 counterexample.  A full-fetch pass that fails on page 2 of 5
(page 1 delivered 100 items, page 2 answers 500) after force-refresh:
the prior one-item snapshot is *not* left byte-for-byte unchanged — the
entry was deleted and then overwritten with the 100-item partial
inventory. -/
theorem c1_counterexample :
    ((force_refresh_seller_inventory oracle_midwalk_fail "seller"
        ⟨some [prior_item], some prior_md⟩ 1000).cache.snapshot.map List.length)
      = some 100
    ∧ ((⟨some [prior_item], some prior_md⟩ : CacheState).snapshot.map List.length)
      = some 1
    ∧ (force_refresh_seller_inventory oracle_midwalk_fail "seller"
        ⟨some [prior_item], some prior_md⟩ 1000).cache.snapshot
      ≠ (⟨some [prior_item], some prior_md⟩ : CacheState).snapshot := by
  refine ⟨rfl, rfl, ?_⟩
  intro hcontra
  have h100 : ((force_refresh_seller_inventory oracle_midwalk_fail "seller"
      ⟨some [prior_item], some prior_md⟩ 1000).cache.snapshot.map List.length)
      = some 100 := rfl
  rw [hcontra] at h100
  simp at h100

/-- C1 witness: the no-write conclusion applied at a probe-failure
oracle (empty fetch result), and the force-refresh snapshot equation at
the same input. -/
theorem c1_witness :
    get_incremental_seller_inventory oracle_probe_fail oracle_probe_fail "s"
        ⟨some [prior_item], some prior_md⟩ 7 true
      = ⟨none, none, ⟨some [prior_item], some prior_md⟩,
          (fetch_seller_inventory oracle_probe_fail).requests⟩ :=
  (c1_no_partial_overwrite_fails oracle_probe_fail oracle_probe_fail "s"
    ⟨some [prior_item], some prior_md⟩ 7).1 (by rfl)

/-! ## Claim C7 -/

theorem take_newer_all (wm : String) (ls : List Listing) :
    ((take_newer wm ls).1).all (strictly_newer wm) = true := by
  induction ls with
  | nil => rfl
  | cons l rest ih =>
    unfold take_newer
    split
    · rename_i hcond
      simp only [List.all_cons, Bool.and_eq_true]
      refine ⟨?_, ih⟩
      simp [strictly_newer, process_listing_dated, process_listing, hcond.1, hcond.2]
    · rfl

theorem take_newer_snd_of_all (wm : String) (ls : List Listing)
    (h : (take_newer wm ls).2 = false) :
    (take_newer wm ls).1.length = ls.length := by
  induction ls with
  | nil => rfl
  | cons l rest ih =>
    unfold take_newer at h ⊢
    split at h
    · rename_i hcond
      rw [if_pos hcond]
      simpa using ih h
    · cases h

theorem smart_inc_pages_all (o : Oracle) (wm : String) :
    ∀ fuel page acc tot, acc.all (strictly_newer wm) = true →
      ∀ res, (smart_inc_pages o wm fuel page acc tot).1 = some res →
        res.1.all (strictly_newer wm) = true := by
  intro fuel
  induction fuel with
  | zero =>
    intro page acc tot hacc res hres
    cases hres
    exact hacc
  | succ n ih =>
    intro page acc tot hacc res hres
    unfold smart_inc_pages at hres
    rcases ho : o page with _ | r <;> rw [ho] at hres <;> dsimp only at hres
    · cases hres
    · by_cases hst : r.status ≠ 200
      · rw [if_pos hst] at hres
        cases hres
        exact hacc
      rw [if_neg hst] at hres
      by_cases hemp : r.listings.isEmpty = true
      · rw [if_pos hemp] at hres
        cases hres
        exact hacc
      rw [if_neg hemp] at hres
      rcases htn : take_newer wm r.listings with ⟨items, flag⟩
      rw [htn] at hres
      have hitems : items.all (strictly_newer wm) = true := by
        have := take_newer_all wm r.listings
        rw [htn] at this
        exact this
      cases flag
      · dsimp only at hres
        by_cases hlen : r.listings.length < 100
        · rw [if_pos hlen] at hres
          cases hres
          simp [List.all_append, hacc, hitems]
        · rw [if_neg hlen] at hres
          dsimp only at hres
          exact ih (page + 1) (acc ++ items) (tot + r.listings.length)
            (by simp [List.all_append, hacc, hitems]) res hres
      · dsimp only at hres
        cases hres
        simp [List.all_append, hacc, hitems]

theorem smart_inc_pages_clean_before (o : Oracle) (wm : String) :
    ∀ fuel page acc tot p, p ∈ (smart_inc_pages o wm fuel page acc tot).2 →
      ∀ q, page ≤ q → q < p → clean_full_page o wm q := by
  intro fuel
  induction fuel with
  | zero =>
    intro page acc tot p hp
    cases hp
  | succ n ih =>
    intro page acc tot p hp q hq1 hq2
    unfold smart_inc_pages at hp
    rcases ho : o page with _ | r <;> rw [ho] at hp <;> dsimp only at hp
    · simp only [List.mem_singleton] at hp
      omega
    · by_cases hst : r.status ≠ 200
      · rw [if_pos hst] at hp
        simp only [List.mem_singleton] at hp
        omega
      rw [if_neg hst] at hp
      by_cases hemp : r.listings.isEmpty = true
      · rw [if_pos hemp] at hp
        simp only [List.mem_singleton] at hp
        omega
      rw [if_neg hemp] at hp
      rcases htn : take_newer wm r.listings with ⟨items, flag⟩
      rw [htn] at hp
      cases flag
      · dsimp only at hp
        by_cases hlen : r.listings.length < 100
        · rw [if_pos hlen] at hp
          simp only [List.mem_singleton] at hp
          omega
        · rw [if_neg hlen] at hp
          simp only [List.mem_cons] at hp
          rcases hp with rfl | hp
          · omega
          · rcases eq_or_lt_of_le hq1 with rfl | hq
            · exact ⟨r, ho, by omega, by simpa [List.isEmpty_iff] using hemp, hlen,
                by rw [htn]⟩
            · exact ih (page + 1) (acc ++ items) (tot + r.listings.length) p hp q hq hq2
      · dsimp only at hp
        simp only [List.mem_singleton] at hp
        omega

/-- C7 (confirmed).  The smart incremental fetch returns only items whose
`listed_date` is strictly greater (string order) than the stored
watermark; a page beyond a requested page is only requested if every page
before it was a clean full page (so the walk stops as soon as it
encounters an item that is not strictly newer); and after either branch
of a successful incremental refresh — merge of new listings, or the
timestamp bump with zero new listings — the stored
`most_recent_listing_date` watermark is ≥ its prior value. -/
theorem c7_watermark_monotone_and_incremental_fetch (o : Oracle) (wm : String)
    (cached : List Item) (md : Metadata) (newL : List Item) (now : Nat) :
    ((fetch_seller_inventory_smart_incremental o wm).newListings).all
        (strictly_newer wm) = true
    ∧ (∀ p, p ∈ (fetch_seller_inventory_smart_incremental o wm).requests →
        ∀ q, 1 ≤ q → q < p → clean_full_page o wm q)
    ∧ date_le md.most_recent_listing_date
        ((incremental_update cached md newL now).2.most_recent_listing_date)
    ∧ date_le md.most_recent_listing_date
        ({ md with cached_at := now, last_updated := now } : Metadata).most_recent_listing_date := by
  refine ⟨?_, ?_, ?_, date_le_refl _⟩
  · unfold fetch_seller_inventory_smart_incremental
    rcases h : smart_inc_pages o wm 50 1 [] 0 with ⟨ores, reqs⟩
    rcases ores with _ | res
    · rfl
    · dsimp only
      exact smart_inc_pages_all o wm 50 1 [] 0 rfl (res.1, res.2)
        (by rw [h])
  · intro p hp q hq1 hq2
    have hreq : (fetch_seller_inventory_smart_incremental o wm).requests
        = (smart_inc_pages o wm 50 1 [] 0).2 := by
      unfold fetch_seller_inventory_smart_incremental
      rcases smart_inc_pages o wm 50 1 [] 0 with ⟨_ | res, reqs⟩ <;> rfl
    rw [hreq] at hp
    exact smart_inc_pages_clean_before o wm 50 1 [] 0 p hp q hq1 hq2
  · unfold incremental_update
    exact scan_most_recent_ge md.most_recent_listing_date newL

/-- C7 witness: with watermark `"a"`, the incremental oracle whose page 2
starts with a non-newer item: page 2 was requested, so page 1 was a clean
full page; all returned items are strictly newer; and the watermark
ordering holds at the sample metadata. -/
theorem c7_witness :
    ((fetch_seller_inventory_smart_incremental oracle_inc "a").newListings).all
        (strictly_newer "a") = true
    ∧ clean_full_page oracle_inc "a" 1
    ∧ date_le prior_md.most_recent_listing_date
        ((incremental_update [prior_item] prior_md [dup_item] 9).2.most_recent_listing_date) := by
  refine ⟨(c7_watermark_monotone_and_incremental_fetch oracle_inc "a" [] prior_md [] 0).1,
    (c7_watermark_monotone_and_incremental_fetch oracle_inc "a" [] prior_md [] 0).2.1
      2 (by decide) 1 (by decide) (by decide),
    (c7_watermark_monotone_and_incremental_fetch oracle_inc "a" [prior_item] prior_md
      [dup_item] 9).2.2.1⟩

/-! ## Claim C9 -/

theorem page_new_items_all (o : Oracle) (ids : List String) (p : Nat) :
    (page_new_items o ids p).all (fun i => i.id ∉ ids) = true := by
  unfold page_new_items
  rcases o p with _ | r
  · rfl
  · dsimp only
    split
    · rfl
    · simp only [List.all_eq_true, List.mem_map]
      rintro i ⟨l, hl, rfl⟩
      have hmem := List.of_mem_filter hl
      simpa [process_listing_dated, process_listing] using hmem

theorem missing_walk_new_items (o : Oracle) (ids : List String) (m : Nat) :
    ∀ ps acc, ∃ extra, (missing_walk o ids m ps acc).1 = acc ++ extra
      ∧ extra.all (fun i => i.id ∉ ids) = true := by
  intro ps
  induction ps with
  | nil =>
    intro acc
    exact ⟨[], by simp [missing_walk], rfl⟩
  | cons p rest ih =>
    intro acc
    unfold missing_walk
    dsimp only
    by_cases hth : (acc ++ page_new_items o ids p).length ≥ m
    · rw [if_pos hth]
      exact ⟨page_new_items o ids p, rfl, page_new_items_all o ids p⟩
    · rw [if_neg hth]
      obtain ⟨extra, hext, hall⟩ := ih (acc ++ page_new_items o ids p)
      refine ⟨page_new_items o ids p ++ extra, ?_, ?_⟩
      · dsimp only
        rw [hext, List.append_assoc]
      · rw [List.all_append, page_new_items_all o ids p, hall]
        rfl

theorem missing_walk_stop (o : Oracle) (ids : List String) (m : Nat) :
    ∀ ps acc, ((missing_walk o ids m ps acc).2).isPrefixOf ps = true
      ∧ ((missing_walk o ids m ps acc).2 ≠ ps →
          (missing_walk o ids m ps acc).1.length ≥ m) := by
  intro ps
  induction ps with
  | nil =>
    intro acc
    exact ⟨rfl, fun h => absurd rfl h⟩
  | cons p rest ih =>
    intro acc
    unfold missing_walk
    dsimp only
    by_cases hth : (acc ++ page_new_items o ids p).length ≥ m
    · rw [if_pos hth]
      constructor
      · simp [List.isPrefixOf]
      · intro _
        exact hth
    · rw [if_neg hth]
      obtain ⟨hpre, hlen⟩ := ih (acc ++ page_new_items o ids p)
      constructor
      · simpa [List.isPrefixOf] using hpre
      · intro hne
        apply hlen
        intro heq
        exact hne (by rw [heq])

theorem fetch_missing_items_decomp (o : Oracle) (retry : Option PageResp)
    (cached : List Item) (tp m : Nat) :
    ∃ extra, (fetch_missing_items_from_end_pages o retry cached tp m).items
        = cached ++ extra
      ∧ extra.all (fun i => i.id ∉ cached.map (fun j => j.id)) = true := by
  unfold fetch_missing_items_from_end_pages
  dsimp only
  obtain ⟨extra, hext, hall⟩ := missing_walk_new_items o (cached.map (fun j => j.id)) m
    (List.range' (max 1 (tp - 2)) (tp + 1 - max 1 (tp - 2))) []
  split
  · rename_i hcond
    rcases retry with _ | r
    · exact ⟨[], by simp, rfl⟩
    · dsimp only
      split
      · refine ⟨_, rfl, ?_⟩
        simp only [List.all_eq_true, List.mem_map]
        rintro i ⟨l, hl, rfl⟩
        have hmem := List.of_mem_filter hl
        simpa [process_listing_dated, process_listing] using hmem
      · exact ⟨[], by simp, rfl⟩
  · refine ⟨extra, ?_, hall⟩
    rw [show (missing_walk o (cached.map (fun j => j.id)) m
      (List.range' (max 1 (tp - 2)) (tp + 1 - max 1 (tp - 2))) []).1 = [] ++ extra from hext]
    simp

/-- C9 (confirmed).  The backfill reconcile returns the cached collection
unchanged whenever the page-1 probe's `total_items` is at most the cached
count, and likewise returns the cache unchanged when the probed page
count exceeds the 100-page ceiling; in every case the result is the
cached items followed only by items whose `id` is not already in the
cached id set; and the tail-page walk requests a prefix of its page
range, stopping early only once the accumulated new items close the
`missing_count` gap (otherwise it runs to the end of the range, the end
of the catalog). -/
theorem c9_backfill_reconcile (o : Oracle) (retry : Option PageResp)
    (cached : List Item) (r1 : PageResp) :
    (o 1 = some r1 → r1.status = 200 → cached ≠ [] →
      r1.pagination.items ≤ cached.length →
      fetch_seller_inventory_complete o retry cached = ⟨cached, cached.take 20, [1]⟩)
    ∧ (o 1 = some r1 → r1.status = 200 → r1.pagination.pages > 100 →
      (fetch_seller_inventory_complete o retry cached).items = cached)
    ∧ (∃ extra, (fetch_seller_inventory_complete o retry cached).items = cached ++ extra
        ∧ extra.all (fun i => i.id ∉ cached.map (fun j => j.id)) = true)
    ∧ (∀ ps acc, ((missing_walk o (cached.map (fun j => j.id))
          (r1.pagination.items - cached.length) ps acc).2).isPrefixOf ps = true
        ∧ ((missing_walk o (cached.map (fun j => j.id))
              (r1.pagination.items - cached.length) ps acc).2 ≠ ps →
            (missing_walk o (cached.map (fun j => j.id))
              (r1.pagination.items - cached.length) ps acc).1.length
              ≥ r1.pagination.items - cached.length)) := by
  refine ⟨?_, ?_, ?_, missing_walk_stop o _ _⟩
  · intro h1 hs hne hle
    unfold fetch_seller_inventory_complete
    rw [h1]
    dsimp only
    rw [if_neg (by simp [hs])]
    by_cases hp : r1.pagination.pages > 100
    · rw [if_pos hp, if_neg (by simp [List.isEmpty_iff, hne])]
    · rw [if_neg hp, if_pos (by simp [List.isEmpty_iff, hne]), if_pos hle]
  · intro h1 hs hp
    unfold fetch_seller_inventory_complete
    rw [h1]
    dsimp only
    rw [if_neg (by simp [hs]), if_pos hp]
    split
    · rename_i hemp
      simp [List.isEmpty_iff.mp hemp]
    · rfl
  · unfold fetch_seller_inventory_complete
    rcases h1 : o 1 with _ | r
    · exact ⟨[], by simp, rfl⟩
    · dsimp only
      by_cases hs : r.status ≠ 200
      · rw [if_pos hs]
        exact ⟨[], by simp, rfl⟩
      rw [if_neg hs]
      by_cases hp : r.pagination.pages > 100
      · rw [if_pos hp]
        split
        · rename_i hemp
          exact ⟨[], by simp [List.isEmpty_iff.mp hemp], rfl⟩
        · exact ⟨[], by simp, rfl⟩
      rw [if_neg hp]
      by_cases hne : ¬cached.isEmpty = true
      · rw [if_pos hne]
        by_cases hle : r.pagination.items ≤ cached.length
        · rw [if_pos hle]
          exact ⟨[], by simp, rfl⟩
        · rw [if_neg hle]
          obtain ⟨extra, hext, hall⟩ := fetch_missing_items_decomp o retry cached
            r.pagination.pages (r.pagination.items - cached.length)
          exact ⟨extra, by dsimp only; rw [hext], hall⟩
      · rw [if_neg hne]
        have hcache : cached = [] := by
          rcases cached with _ | ⟨a, b⟩
          · rfl
          · simp at hne
        subst hcache
        exact ⟨(fetch_all_items_via_pagination o r.pagination.pages).items,
          by simp, by simp⟩

/-- C9 witness: a one-item probe against a one-item cache returns the
cache unchanged via the gap check, and a 150-page probe returns it
unchanged via the ceiling check. -/
theorem c9_witness :
    fetch_seller_inventory_complete oracle_tiny none [prior_item]
      = ⟨[prior_item], [prior_item], [1]⟩
    ∧ (fetch_seller_inventory_complete oracle_large none [prior_item]).items
      = [prior_item] := by
  constructor
  · exact (c9_backfill_reconcile oracle_tiny none [prior_item]
      ⟨200, [⟨"A", none, "t", "", "For Sale"⟩], ⟨1, 1⟩⟩).1 rfl rfl (by decide) (by decide)
  · exact (c9_backfill_reconcile oracle_large none [prior_item]
      ⟨200, [⟨"B1", none, "t", "", "For Sale"⟩], ⟨150, 15000⟩⟩).2.1 rfl rfl (by decide)

/-! ## Claim C10 -/

theorem fetch_pages_from_exn (o : Oracle) :
    ∀ fuel page acc p, p ∈ (fetch_pages_from o fuel page acc).2 → o p = none →
      (fetch_pages_from o fuel page acc).1 = none := by
  intro fuel
  induction fuel with
  | zero =>
    intro page acc p hp
    cases hp
  | succ n ih =>
    intro page acc p hp hnone
    rcases ho : o page with _ | r
    · unfold fetch_pages_from
      rw [ho]
    · unfold fetch_pages_from at hp ⊢
      rw [ho] at hp ⊢
      dsimp only at hp ⊢
      by_cases hst : r.status ≠ 200
      · rw [if_pos hst] at hp ⊢
        simp only [List.mem_singleton] at hp
        subst hp
        rw [hnone] at ho
        cases ho
      rw [if_neg hst] at hp ⊢
      by_cases hemp : r.listings.isEmpty = true
      · rw [if_pos hemp] at hp ⊢
        simp only [List.mem_singleton] at hp
        subst hp
        rw [hnone] at ho
        cases ho
      rw [if_neg hemp] at hp ⊢
      by_cases hlen : r.listings.length < 100
      · rw [if_pos hlen] at hp ⊢
        simp only [List.mem_singleton] at hp
        subst hp
        rw [hnone] at ho
        cases ho
      · rw [if_neg hlen] at hp ⊢
        dsimp only at hp ⊢
        simp only [List.mem_cons] at hp
        rcases hp with rfl | hp
        · rw [hnone] at ho
          cases ho
        · exact ih (page + 1) (acc ++ r.listings.map process_listing) p hp hnone

theorem fetch_pages_from_midfail (o : Oracle) (pg : Nat → PageResp) :
    ∀ j fuel page acc, j < fuel →
      (∀ t, t < j → o (page + t) = some (pg (page + t))
        ∧ (pg (page + t)).status = 200 ∧ (pg (page + t)).listings.length = 100) →
      ∀ rfail, o (page + j) = some rfail → rfail.status ≠ 200 →
      (fetch_pages_from o fuel page acc).1
        = some (acc ++ ((List.range j).map
            (fun t => (pg (page + t)).listings.map process_listing)).flatten) := by
  intro j
  induction j with
  | zero =>
    intro fuel page acc hfuel hclean rfail hfail hstatus
    rcases fuel with _ | n
    · omega
    rw [show page + 0 = page from rfl] at hfail
    unfold fetch_pages_from
    rw [hfail]
    dsimp only
    rw [if_pos hstatus]
    simp
  | succ k ih =>
    intro fuel page acc hfuel hclean rfail hfail hstatus
    rcases fuel with _ | n
    · omega
    obtain ⟨ho, hs, hl⟩ := hclean 0 (by omega)
    rw [show page + 0 = page from rfl] at ho hs hl
    unfold fetch_pages_from
    rw [ho]
    dsimp only
    rw [if_neg (by simp [hs]), if_neg (by
        intro hcontra
        rw [List.isEmpty_iff] at hcontra
        rw [hcontra] at hl
        cases hl), if_neg (by omega)]
    dsimp only
    have hrec := ih n (page + 1) (acc ++ (pg page).listings.map process_listing)
      (by omega)
      (fun t ht => by
        have hct := hclean (t + 1) (by omega)
        rwa [show page + (t + 1) = page + 1 + t by omega] at hct)
      rfail (by rwa [show page + 1 + k = page + (k + 1) by omega]) hstatus
    rw [hrec]
    simp only [List.range_succ_eq_map, List.map_cons, List.flatten_cons, List.map_map]
    rw [show page + 0 = page from rfl, ← List.append_assoc]
    have hfun : (fun t => List.map process_listing (pg (page + 1 + t)).listings)
        = ((fun t => List.map process_listing (pg (page + t)).listings) ∘ Nat.succ) := by
      funext t
      show List.map process_listing (pg (page + 1 + t)).listings
        = List.map process_listing (pg (page + (t + 1))).listings
      rw [show page + 1 + t = page + (t + 1) by omega]
    rw [hfun]

/-- C10 (confirmed).  The full seller-catalog fetch never propagates a
failure: a non-2xx page-1 probe, an over-ceiling page count, and a raised
exception (including one at any requested page mid-walk) all yield the
empty list, while a non-2xx response mid-walk yields exactly the partial
list fetched so far (page 1 plus every clean full page before the failing
one) — so an empty catalog is indistinguishable from a failed fetch at
this interface — and the synchronizer maps every empty fetch result to
`(None, None)` without touching the cache, in the bypass branch and the
no-cache branch alike. -/
theorem c10_fetch_never_raises (o oi : Oracle) (seller : String) (c : CacheState)
    (now : Nat) :
    (o 1 = none → (fetch_seller_inventory o).items = [])
    ∧ (∀ r1, o 1 = some r1 → r1.status ≠ 200 → (fetch_seller_inventory o).items = [])
    ∧ (∀ r1, o 1 = some r1 → r1.pagination.pages > 100 →
        (fetch_seller_inventory o).items = [])
    ∧ (∀ p, p ∈ (fetch_seller_inventory o).requests → o p = none →
        (fetch_seller_inventory o).items = [])
    ∧ (∀ r1 (pg : Nat → PageResp) j, o 1 = some r1 → r1.status = 200 →
        r1.pagination.pages ≤ 100 → j < 199 →
        (∀ t, t < j → o (2 + t) = some (pg (2 + t))
          ∧ (pg (2 + t)).status = 200 ∧ (pg (2 + t)).listings.length = 100) →
        ∀ rfail, o (2 + j) = some rfail → rfail.status ≠ 200 →
        (fetch_seller_inventory o).items
          = r1.listings.map process_listing
            ++ ((List.range j).map
                (fun t => (pg (2 + t)).listings.map process_listing)).flatten)
    ∧ ((fetch_seller_inventory o).items = [] →
        get_incremental_seller_inventory o oi seller c now true
          = ⟨none, none, c, (fetch_seller_inventory o).requests⟩
        ∧ (c.metadata = none →
            get_incremental_seller_inventory o oi seller c now false
              = ⟨none, none, c, (fetch_seller_inventory o).requests⟩)) := by
  refine ⟨?_, ?_, ?_, ?_, ?_, ?_⟩
  · intro h1
    unfold fetch_seller_inventory
    rw [h1]
  · intro r1 h1 hs
    unfold fetch_seller_inventory
    rw [h1]
    dsimp only
    rw [if_pos hs]
  · intro r1 h1 hp
    unfold fetch_seller_inventory
    rw [h1]
    dsimp only
    by_cases hs : r1.status ≠ 200
    · rw [if_pos hs]
    · rw [if_neg hs, if_pos hp]
  · intro p hp hnone
    rcases h1 : o 1 with _ | r1
    · unfold fetch_seller_inventory
      rw [h1]
    · unfold fetch_seller_inventory at hp ⊢
      rw [h1] at hp ⊢
      dsimp only at hp ⊢
      by_cases hs : r1.status ≠ 200
      · rw [if_pos hs]
      rw [if_neg hs] at hp ⊢
      by_cases hpg : r1.pagination.pages > 100
      · rw [if_pos hpg]
      rw [if_neg hpg] at hp ⊢
      rcases hloop : fetch_pages_from o 199 2 (r1.listings.map process_listing)
          with ⟨ores, reqs⟩
      rcases ores with _ | inv
      · rfl
      · rw [hloop] at hp
        dsimp only at hp ⊢
        have hp2 : p = 1 ∨ p ∈ reqs := by simpa using hp
        rcases hp2 with rfl | hp
        · rw [hnone] at h1
          cases h1
        · have := fetch_pages_from_exn o 199 2 (r1.listings.map process_listing) p
            (by rw [hloop]; exact hp) hnone
          rw [hloop] at this
          cases this
  · intro r1 pg j h1 hs hpg hj hclean rfail hfail hstatus
    unfold fetch_seller_inventory
    rw [h1]
    dsimp only
    rw [if_neg (by simp [hs]), if_neg (by omega)]
    have := fetch_pages_from_midfail o pg j 199 2 (r1.listings.map process_listing)
      hj hclean rfail hfail hstatus
    rcases hloop : fetch_pages_from o 199 2 (r1.listings.map process_listing)
        with ⟨ores, reqs⟩
    rw [hloop] at this
    rcases ores with _ | inv
    · cases this
    · dsimp only
      exact Option.some.inj this
  · intro hemp
    constructor
    · unfold get_incremental_seller_inventory full_fetch_and_cache
      rw [if_pos rfl]
      dsimp only
      rw [if_pos (by simp [hemp])]
    · intro hmeta
      unfold get_incremental_seller_inventory
      rw [if_neg (by simp)]
      have hcache : get_cached_seller_inventory c now = (none, none) := by
        unfold get_cached_seller_inventory
        rw [hmeta]
      rw [hcache]
      dsimp only
      unfold full_fetch_and_cache
      dsimp only
      rw [if_pos (by simp [hemp])]

/-- C10 witness: at the mid-walk-failure oracle (full page 1, 500 on
page 2), the fetch returns exactly the 100 processed page-1 listings, and
at the probe-failure oracle the empty result makes the bypassing
synchronizer return `(None, None)` with the cache untouched. -/
theorem c10_witness :
    (fetch_seller_inventory oracle_midwalk_fail).items
      = sample_full_page.listings.map process_listing
    ∧ get_incremental_seller_inventory oracle_probe_fail oracle_probe_fail "s"
        ⟨some [prior_item], some prior_md⟩ 3 true
      = ⟨none, none, ⟨some [prior_item], some prior_md⟩,
          (fetch_seller_inventory oracle_probe_fail).requests⟩ := by
  constructor
  · have h := (c10_fetch_never_raises oracle_midwalk_fail oracle_midwalk_fail "s"
      ⟨none, none⟩ 0).2.2.2.2.1 sample_full_page
      (fun _ => ⟨500, [], ⟨5, 450⟩⟩) 0 rfl rfl (by decide) (by decide)
      (fun t ht => absurd ht (by omega)) ⟨500, [], ⟨5, 450⟩⟩ rfl (by decide)
    rw [h]
    simp
  · exact ((c10_fetch_never_raises oracle_probe_fail oracle_probe_fail "s"
      ⟨some [prior_item], some prior_md⟩ 3).2.2.2.2.2 (by rfl)).1

end MutualOrder
